import Mathlib

/-!
Verification of the directory-backed authentication client
(`pkg/utils/ldap/ldap.go`) of the golden-go repository.

Strings are modelled as byte sequences (`List Nat`, each entry a byte),
matching Go's byte-indexed `string` type.  Library functions used by the
source (`strings.Contains`, `strings.ReplaceAll`, `strings.TrimSpace`,
`fmt.Sprintf` with string verbs, `net.JoinHostPort`, and go-ldap's
`EscapeFilter`) are embedded at byte level below.  Fallible Go code is
embedded with `Option`/`Except`; a run-time nil-pointer dereference is a
distinguished error value.  The LDAP connection is abstracted as an
oracle giving the directory's response to each wire operation, and every
embedded operation additionally records the trace of wire calls it
performs, so that statements about which binds and searches a login
attempt issues can be made precise.
-/

namespace GoldenLdap

/-- Byte strings: Go `string` values viewed as their byte sequence. -/
abbrev Str := List Nat

/-- Bytes of an ASCII literal (all literals used below are ASCII, where
the byte sequence and the code-point sequence coincide). -/
def str (s : String) : Str := s.data.map Char.toNat

/-- ASCII lower-casing, as `strings.ToLower` acts on ASCII bytes. -/
def toLowerASCII (s : Str) : Str :=
  s.map (fun c => if 65 ≤ c ∧ c ≤ 90 then c + 32 else c)

/-- `hasPrefixL pat s` : `pat` is a prefix of `s` (Go `strings.HasPrefix`). -/
def hasPrefixL : Str → Str → Bool
  | [], _ => true
  | _ :: _, [] => false
  | p :: ps, c :: cs => if p = c then hasPrefixL ps cs else false

/-- Go `strings.Contains s pat`: `pat` occurs as a substring of `s`. -/
def containsSub : Str → Str → Bool
  | [], pat => pat.isEmpty
  | c :: t, pat => hasPrefixL pat (c :: t) || containsSub t pat

/-- Recursion of `replaceAll` over the scanned string, with a structural
fuel counter that starts at the string's length and bounds it throughout
(on a match, `old.length - 1 ≥ 0` extra bytes are dropped beyond the
structural head, so one fuel step per head suffices); the fuel-exhausted
arm is unreachable. -/
def replaceAllAux (old new : Str) : Nat → Str → Str
  | _, [] => []
  | 0, s => s
  | fuel + 1, c :: t =>
    if hasPrefixL old (c :: t) then
      new ++ replaceAllAux old new fuel (List.drop (old.length - 1) t)
    else
      c :: replaceAllAux old new fuel t

/-- Go `strings.ReplaceAll s old new`: replace every non-overlapping
occurrence of `old` in `s` by `new`, scanning left to right.  The
`old = []` case (Go interleaves `new` between characters) is never
exercised: the only pattern used by the source is the literal `"%s"`. -/
def replaceAll (s old new : Str) : Str :=
  match old with
  | [] => s
  | _ :: _ => replaceAllAux old new s.length s

/-- Go `strings.Split s sep` for a single-byte separator: split on every
occurrence, keeping empty fields (`Split "" _ = [""]`). -/
def splitOnByte (b : Nat) : Str → List Str
  | [] => [[]]
  | c :: t =>
    match splitOnByte b t with
    | [] => [[]]
    | h :: rest => if c = b then [] :: h :: rest else (c :: h) :: rest

/-- Go `strings.TrimPrefix s pre`. -/
def trimPrefixL (s pre : Str) : Str :=
  if hasPrefixL pre s then List.drop pre.length s else s

/-- Go `strings.TrimSuffix s suf`. -/
def trimSuffixL (s suf : Str) : Str :=
  if hasPrefixL suf.reverse s.reverse then
    (List.drop suf.length s.reverse).reverse
  else s

/-- ASCII whitespace bytes, the ASCII fragment of Go `unicode.IsSpace`. -/
def isSpaceByte (b : Nat) : Bool :=
  decide (b = 32 ∨ b = 9 ∨ b = 10 ∨ b = 11 ∨ b = 12 ∨ b = 13)

/-- Go `strings.TrimSpace` (source trims Unicode whitespace; the model
covers the ASCII fragment, on which the two agree). -/
def trimSpace (s : Str) : Str :=
  ((s.dropWhile isSpaceByte).reverse.dropWhile isSpaceByte).reverse

/-- Decimal rendering of a natural number, as Go renders a port. -/
def natStr (n : Nat) : Str := str (toString n)

/-- Go `net.JoinHostPort host port`: bracket the host when it contains a
colon (IPv6), then append `:port`. -/
def joinHostPort (host : Str) (port : Nat) : Str :=
  if containsSub host (str (":")) then
    str ("[") ++ host ++ str ("]:") ++ natStr port
  else
    host ++ str (":") ++ natStr port

/-- Trailer `fmt` appends when an argument was never consumed. -/
def extraMissing (arg : Str) : Str :=
  str ("%!(EXTRA string=") ++ arg ++ str (")")

/-- Byte-level model of Go `fmt.Sprintf` applied to one `string`
argument: the first `%s` verb consumes the argument (inserting it
verbatim), a later `%s` renders `%!s(MISSING)`, `%%` renders `%`, any
other verb is a bad verb for a string argument, a trailing `%` renders
`%!(NOVERB)`, and an unconsumed argument is reported in an
`%!(EXTRA ...)` trailer.  The source only ever formats templates whose
sole directive is one `%s`. -/
def sprintf1Aux (arg : Str) : Bool → Str → Str
  | used, [] => if used then [] else extraMissing arg
  | used, c :: rest =>
    if c = 37 then
      match rest with
      | [] => str ("%!(NOVERB)") ++ (if used then [] else extraMissing arg)
      | d :: t =>
        if d = 37 then 37 :: sprintf1Aux arg used t
        else if d = 115 then
          (if used then str ("%!s(MISSING)") ++ sprintf1Aux arg used t
           else arg ++ sprintf1Aux arg true t)
        else
          (if used then str ("%!") ++ d :: str ("(MISSING)") ++ sprintf1Aux arg used t
           else str ("%!") ++ d :: str ("(string=") ++ arg ++ str (")") ++ sprintf1Aux arg true t)
    else c :: sprintf1Aux arg used rest

/-- `fmt.Sprintf format arg` for one string argument. -/
def sprintf1 (format arg : Str) : Str := sprintf1Aux arg false format

/-! ### go-ldap `EscapeFilter` -/

/-- go-ldap's `mustEscape`: a byte needing RFC 4515 escaping in a filter
value: outside 7-bit ASCII, or one of `( ) \ *` or NUL. -/
def mustEscape (c : Nat) : Bool :=
  decide (127 < c ∨ c = 40 ∨ c = 41 ∨ c = 92 ∨ c = 42 ∨ c = 0)

/-- Lower-case hex digit of a nibble, go-ldap's `"0123456789abcdef"[n]`. -/
def hexChar (n : Nat) : Nat := if n < 10 then 48 + n else 87 + n

/-- Escaping of one byte: `\xx` when it must be escaped, itself otherwise. -/
def escByte (c : Nat) : Str :=
  if mustEscape c then [92, hexChar (c / 16), hexChar (c % 16)] else [c]

/-- go-ldap `EscapeFilter`.  The source first counts the bytes to escape
and returns the input unchanged when the count is zero, purely as an
allocation optimisation; byte for byte the output is this map. -/
def escapeFilter : Str → Str
  | [] => []
  | c :: t => escByte c ++ escapeFilter t

/-- A byte string free of the four structural filter metacharacters
`NUL ( ) *`: no raw parenthesis, wildcard, or NUL byte occurs. -/
def filterMetaFree : Str → Bool
  | [] => true
  | b :: t => decide (¬(b = 0 ∨ b = 40 ∨ b = 41 ∨ b = 42)) && filterMetaFree t

/-- Lower-case hexadecimal digit byte. -/
def isHexLower (b : Nat) : Bool :=
  decide ((48 ≤ b ∧ b ≤ 57) ∨ (97 ≤ b ∧ b ≤ 102))

/-- Scanner for `wellEscaped`: the state counts the hex digits still
expected after a backslash (0 when outside an escape).  A backslash
outside an escape demands two hex digits; inside an escape each byte
must be a lower-case hex digit; the string must not end mid-escape. -/
def wellEscapedSt : Nat → Str → Bool
  | 0, [] => true
  | _ + 1, [] => false
  | 0, c :: t => if c = 92 then wellEscapedSt 2 t else wellEscapedSt 0 t
  | k + 1, c :: t => isHexLower c && wellEscapedSt k t

/-- Every backslash in the string starts a `\xx` escape with two
lower-case hex digits, so the string parses as a well-formed RFC 4515
escaped value with no stray escape character. -/
def wellEscaped (s : Str) : Bool := wellEscapedSt 0 s

/-! ### Data model

The wire-level shapes (`Entry`, `SearchRequest`, `SearchResult`) follow
the go-ldap structures used by the source; only the fields the source
reads or writes are modelled (the source's `SearchRequest` literal
leaves go-ldap's remaining fields at their zero values). -/

/-- One attribute of a directory entry: a name and its ordered values. -/
structure EntryAttribute where
  Name : Str
  Values : List Str
deriving DecidableEq

/-- A raw directory entry: distinguished name plus attributes. -/
structure Entry where
  DN : Str
  Attributes : List EntryAttribute
deriving DecidableEq

/-- go-ldap search result; the source reads only `Entries`. -/
structure SearchResult where
  Entries : List Entry
deriving DecidableEq

/-- go-ldap search request, the fields the source populates. -/
structure SearchRequest where
  BaseDN : Str
  Scope : Nat
  DerefAliases : Nat
  Attributes : List Str
  Filter : Str
deriving DecidableEq

/-- go-ldap `ScopeWholeSubtree`. -/
def ScopeWholeSubtree : Nat := 2

/-- go-ldap `NeverDerefAliases`. -/
def NeverDerefAliases : Nat := 0

/-- Domain of error outcomes.  `ldapError code` stands for a
`*goldap.Error` carrying the directory result code (the shape
`errors.As` looks for in `userBind`); `invalidCredentials` and
`couldNotFindUser` are the package's two sentinel errors
`ErrInvalidCredentials` and `ErrCouldNotFindUser`;
`nilPointerDereference` marks the run-time panic of reading a field of
a nil pointer; `other` covers every remaining error value. -/
inductive GoError where
  | invalidCredentials
  | couldNotFindUser
  | ldapError (resultCode : Nat)
  | nilPointerDereference
  | other (tag : Nat)
deriving DecidableEq

/-- One wire operation performed on the connection. -/
inductive ConnOp where
  | bindOp (dn password : Str)
  | unauthBindOp (dn : Str)
  | searchOp (req : SearchRequest)
deriving DecidableEq

/-- A bind-class operation (authenticated `Bind`). -/
def isBindOp : ConnOp → Bool
  | .bindOp _ _ => true
  | _ => false

/-- A search operation. -/
def isSearchOp : ConnOp → Bool
  | .searchOp _ => true
  | _ => false

/-- Behaviour of the directory seen through one connection (the
`IConnection` the `Server` holds): the directory's response to each
bind, unauthenticated bind, and search.  `none` is a nil error. -/
structure ConnBehavior where
  bindRes : Str → Str → Option GoError
  unauthBindRes : Str → Option GoError
  searchRes : SearchRequest → Except GoError SearchResult

/-- `AttributeMap`: logical field to directory attribute name. -/
structure AttributeMap where
  Username : Str
  Name : Str
  Surname : Str
  Email : Str
  MemberOf : Str
deriving DecidableEq

/-- `ServerConfig`: one directory server's connection facts. -/
structure ServerConfig where
  Host : Str
  Port : Nat
  UseSSL : Bool
  StartTLS : Bool
  SkipVerifySSL : Bool
  RootCACert : Str
  ClientCert : Str
  ClientKey : Str
  BindDN : Str
  BindPassword : Str
  Attr : AttributeMap
  SearchFilter : Str
  SearchBaseDNs : List Str
  GroupSearchFilter : Str
  GroupSearchFilterUserAttribute : Str
  GroupSearchBaseDNs : List Str
deriving DecidableEq

/-- Modelled from the spec: the application's origin tag marking a user
record as directory-sourced (`models.AuthModuleLDAP`; package
`pkg/models` is not among the provided sources). -/
inductive AuthModule where
  | ldap
deriving DecidableEq

/-- Modelled from the spec: the application user record (`models.User`,
package `pkg/models` is not among the provided sources) — the output
identity: display name, email, and the origin tag.  Field names follow
the accesses the source makes (`user.Name`, `extUser.Email`). -/
structure User where
  AuthModule : AuthModule
  Name : Str
  Email : Str
deriving DecidableEq

/-- Modelled from the spec: the login attempt carrying the requested
login name and plaintext credential (`types.LoginData`; package
`pkg/utils/types` is not among the provided sources).  Field names
follow the accesses the source makes (`query.Name`, `query.Password`). -/
structure LoginData where
  Name : Str
  Password : Str
deriving DecidableEq

/-! ### Source functions (`pkg/utils/ldap/ldap.go`)

Each `Server` method takes the configuration, the connection behaviour,
and the trace of wire operations performed so far, and returns the
extended trace together with its Go return value. -/

/-- `appendIfNotEmpty`: append each non-empty value to the slice. -/
def appendIfNotEmpty (slice : List Str) : List Str → List Str
  | [] => slice
  | v :: vs => appendIfNotEmpty (if v = [] then slice else slice ++ [v]) vs

/-- Scan of `getAttribute`'s loop over the entry's attributes: the first
attribute with the requested name and a non-empty value list yields its
first value; otherwise the empty string. -/
def getAttributeFrom (name : Str) : List EntryAttribute → Str
  | [] => []
  | attr :: rest =>
    if attr.Name = name then
      match attr.Values with
      | v :: _ => v
      | [] => getAttributeFrom name rest
    else getAttributeFrom name rest

/-- `getAttribute`: the literal attribute name `dn` (case-insensitive)
is special-cased to the entry's own distinguished name; otherwise the
first value of the named attribute, or the empty string. -/
def getAttribute (name : Str) (entry : Entry) : Str :=
  if toLowerASCII name = str ("dn") then entry.DN
  else getAttributeFrom name entry.Attributes

/-- `shouldAdminBind`: an administrative bind password is configured. -/
def shouldAdminBind (cfg : ServerConfig) : Bool := !cfg.BindPassword.isEmpty

/-- `shouldSingleBind`: the bind DN contains the `%s` placeholder. -/
def shouldSingleBind (cfg : ServerConfig) : Bool :=
  containsSub cfg.BindDN (str ("%s"))

/-- `singleBindDN`: render the bind-DN template with the login name
(`fmt.Sprintf(server.Config.BindDN, username)`). -/
def singleBindDN (cfg : ServerConfig) (username : Str) : Str :=
  sprintf1 cfg.BindDN username

/-- Error translation of `userBind`: a `*goldap.Error` whose result code
is 49 (the directory's invalid-credentials code, recognised through
`errors.As`) becomes `ErrInvalidCredentials`; every other bind failure
is propagated as is. -/
def mapBindError : GoError → GoError
  | .ldapError 49 => GoError.invalidCredentials
  | e => e

/-- `userBind` (lower-case): one `Connection.Bind`, with the failure
translated through `mapBindError`. -/
def userBind (c : ConnBehavior) (tr : List ConnOp) (path password : Str) :
    List ConnOp × Option GoError :=
  (tr ++ [ConnOp.bindOp path password],
   match c.bindRes path password with
   | none => none
   | some e => some (mapBindError e))

/-- `UserBind`: `userBind` plus diagnostic logging (behaviour-neutral). -/
def UserBind (c : ConnBehavior) (tr : List ConnOp) (username password : Str) :
    List ConnOp × Option GoError :=
  userBind c tr username password

/-- `AdminBind`: `userBind` with the configured admin DN and password. -/
def AdminBind (cfg : ServerConfig) (c : ConnBehavior) (tr : List ConnOp) :
    List ConnOp × Option GoError :=
  userBind c tr cfg.BindDN cfg.BindPassword

/-- `Bind`: strategy bind without a specific user — admin bind when an
admin password is configured, else an unauthenticated bind. -/
def Bind (cfg : ServerConfig) (c : ConnBehavior) (tr : List ConnOp) :
    List ConnOp × Option GoError :=
  if shouldAdminBind cfg then AdminBind cfg c tr
  else (tr ++ [ConnOp.unauthBindOp cfg.BindDN], c.unauthBindRes cfg.BindDN)

/-- `UsersMaxRequest`: cap on logins per search batch. -/
def UsersMaxRequest : Nat := 500

/-- `validateGoldenUser`: always nil (its body is commented out). -/
def validateGoldenUser (_ : User) : Option GoError := none

/-- Concatenated per-login filter fragments of `getSearchRequest`: for
each login, the `%s` placeholder of the configured search filter is
replaced by the filter-escaped login, and the fragments concatenated. -/
def searchFragments (cfg : ServerConfig) : List Str → Str
  | [] => []
  | login :: rest =>
    replaceAll cfg.SearchFilter (str ("%s")) (escapeFilter login) ++
      searchFragments cfg rest

/-- `getSearchRequest`: attribute list from the attribute map plus the
group-search user attribute (empty names omitted), the per-login
fragments wrapped in one OR group, whole-subtree scope, alias
dereferencing disabled. -/
def getSearchRequest (cfg : ServerConfig) (base : Str) (logins : List Str) :
    SearchRequest :=
  { BaseDN := base
    Scope := ScopeWholeSubtree
    DerefAliases := NeverDerefAliases
    Attributes :=
      appendIfNotEmpty []
        [cfg.Attr.Username, cfg.Attr.Surname, cfg.Attr.Email,
         cfg.Attr.Name, cfg.Attr.MemberOf,
         cfg.GroupSearchFilterUserAttribute]
    Filter := str ("(|") ++ searchFragments cfg logins ++ str (")") }

/-- Loop of `users` (lower-case) over the configured search bases:
`last` is the `result` variable (nil before the first search).  A search
error aborts; a base yielding entries breaks the loop; after the loop
`result.Entries` is read — a nil-pointer dereference when no base was
ever searched. -/
def usersLoop (cfg : ServerConfig) (c : ConnBehavior) (logins : List Str) :
    List Str → List ConnOp → Option SearchResult →
    List ConnOp × Except GoError (List Entry)
  | [], tr, none => (tr, Except.error GoError.nilPointerDereference)
  | [], tr, some r => (tr, Except.ok r.Entries)
  | base :: rest, tr, _ =>
    match c.searchRes (getSearchRequest cfg base logins) with
    | Except.error e =>
      (tr ++ [ConnOp.searchOp (getSearchRequest cfg base logins)], Except.error e)
    | Except.ok r =>
      if r.Entries = [] then
        usersLoop cfg c logins rest
          (tr ++ [ConnOp.searchOp (getSearchRequest cfg base logins)]) (some r)
      else
        (tr ++ [ConnOp.searchOp (getSearchRequest cfg base logins)],
         Except.ok r.Entries)

/-- `users` (lower-case): search each configured base in order. -/
def users (cfg : ServerConfig) (c : ConnBehavior) (tr : List ConnOp)
    (logins : List Str) : List ConnOp × Except GoError (List Entry) :=
  usersLoop cfg c logins cfg.SearchBaseDNs tr none

/-- Number of batches of `getUsersIteration`:
`int(math.Ceil(float64(len) / float64(UsersMaxRequest)))`, the ceiling
of `len / 500` (exact in the integer range of `float64`). -/
def usersIterations (n : Nat) : Nat :=
  (n + (UsersMaxRequest - 1)) / UsersMaxRequest

/-- Index ranges of `getUsersIteration`'s loop (`i = 1 .. iterations`,
here indexed from 0): `previous = 500*(i-1)`,
`current = min(500*i, len)`. -/
def batchRanges (n : Nat) : List (Nat × Nat) :=
  (List.range (usersIterations n)).map
    (fun j => (UsersMaxRequest * j, min (UsersMaxRequest * (j + 1)) n))

/-- Run a batch callback on each index range, stopping at an error. -/
def runBatches (fn : Nat → Nat → Except GoError Unit) :
    List (Nat × Nat) → Except GoError Unit
  | [] => Except.ok ()
  | (p, cur) :: rest =>
    match fn p cur with
    | Except.error e => Except.error e
    | Except.ok _ => runBatches fn rest

/-- `getUsersIteration`: divide the logins into batches of at most
`UsersMaxRequest` and feed each `(previous, current)` range to `fn`. -/
def getUsersIteration (logins : List Str)
    (fn : Nat → Nat → Except GoError Unit) : Except GoError Unit :=
  runBatches fn (batchRanges logins.length)

/-- `buildGoldenUser`: display name is the mapped name and surname
attributes joined by one space (`fmt.Sprintf("%s %s", ..)`) and trimmed;
email is the mapped email attribute; the origin tag marks the record as
directory-sourced.  The source's error return is always nil. -/
def buildGoldenUser (cfg : ServerConfig) (user : Entry) : User :=
  { AuthModule := AuthModule.ldap
    Name := trimSpace
      (getAttribute cfg.Attr.Name user ++ str (" ") ++
       getAttribute cfg.Attr.Surname user)
    Email := getAttribute cfg.Attr.Email user }

/-- `serializeUsers`: map each entry through `buildGoldenUser` (whose
error branch is dead, so the serialization cannot fail). -/
def serializeUsers (cfg : ServerConfig) (entries : List Entry) : List User :=
  entries.map (buildGoldenUser cfg)

/-- Body of the closure `Users` passes to `getUsersIteration`, iterated
over the batch ranges: per range, search `logins[previous:current]` and
append the entries found. -/
def usersBatches (cfg : ServerConfig) (c : ConnBehavior) (logins : List Str) :
    List (Nat × Nat) → List ConnOp → List Entry →
    List ConnOp × Except GoError (List Entry)
  | [], tr, acc => (tr, Except.ok acc)
  | (p, cur) :: rest, tr, acc =>
    match users cfg c tr ((logins.drop p).take (cur - p)) with
    | (tr2, Except.error e) => (tr2, Except.error e)
    | (tr2, Except.ok es) => usersBatches cfg c logins rest tr2 (acc ++ es)

/-- `Users`: batched lookup of directory users by logins.  Zero entries
over all batches yield the empty user list; otherwise the entries are
serialized. -/
def Users (cfg : ServerConfig) (c : ConnBehavior) (tr : List ConnOp)
    (logins : List Str) : List ConnOp × Except GoError (List User) :=
  match usersBatches cfg c logins (batchRanges logins.length) tr [] with
  | (tr2, Except.error e) => (tr2, Except.error e)
  | (tr2, Except.ok entries) =>
    if entries = [] then (tr2, Except.ok [])
    else (tr2, Except.ok (serializeUsers cfg entries))

/-- Tail of `Login` after the strategy bind succeeded: search for the
requesting login, reject with `ErrCouldNotFindUser` on zero matches,
validate, and — unless the single-bind path already authenticated the
user (`authAndBind`) — verify the credential with one further bind as
`user.Name`. -/
def loginAfterBind (cfg : ServerConfig) (c : ConnBehavior) (query : LoginData)
    (tr : List ConnOp) (authAndBind : Bool) :
    List ConnOp × Except GoError User :=
  match Users cfg c tr [query.Name] with
  | (tr2, Except.error e) => (tr2, Except.error e)
  | (tr2, Except.ok us) =>
    match us with
    | [] => (tr2, Except.error GoError.couldNotFindUser)
    | user :: _ =>
      match validateGoldenUser user with
      | some e => (tr2, Except.error e)
      | none =>
        if authAndBind then (tr2, Except.ok user)
        else
          match UserBind c tr2 user.Name query.Password with
          | (tr3, none) => (tr3, Except.ok user)
          | (tr3, some e) => (tr3, Except.error e)

/-- `Login`: select the bind strategy from the configuration (admin
bind, single bind as the rendered template DN, or unauthenticated
bind), then search and verify. -/
def Login (cfg : ServerConfig) (c : ConnBehavior) (query : LoginData) :
    List ConnOp × Except GoError User :=
  if shouldAdminBind cfg then
    match AdminBind cfg c [] with
    | (tr, some e) => (tr, Except.error e)
    | (tr, none) => loginAfterBind cfg c query tr false
  else if shouldSingleBind cfg then
    match UserBind c [] (singleBindDN cfg query.Name) query.Password with
    | (tr, some e) => (tr, Except.error e)
    | (tr, none) => loginAfterBind cfg c query tr true
  else
    match c.unauthBindRes cfg.BindDN with
    | some e => ([ConnOp.unauthBindOp cfg.BindDN], Except.error e)
    | none => loginAfterBind cfg c query [ConnOp.unauthBindOp cfg.BindDN] false

/-- The three bind strategies of the `Login` switch. -/
inductive BindStrategy where
  | adminBind
  | singleBind
  | anonymous
deriving DecidableEq

/-- The strategy `Login`'s switch selects, as a function of the
configuration alone. -/
def bindStrategy (cfg : ServerConfig) : BindStrategy :=
  if shouldAdminBind cfg then BindStrategy.adminBind
  else if shouldSingleBind cfg then BindStrategy.singleBind
  else BindStrategy.anonymous

/-! ### `Dial` -/

/-- Environment of one `Dial` call: outcomes of certificate loading and
of the per-address transport steps.  `none` is success.  The TLS
parameter construction (server name, skip-verify, pools) has no bearing
on the host-iteration behaviour and lives behind these outcomes. -/
structure DialEnv where
  caLoad : Option GoError
  clientCertLoad : Option GoError
  tcpDialRes : Str → Option GoError
  tlsDialRes : Str → Option GoError
  startTLSRes : Str → Option GoError

/-- One host attempt of `Dial`'s loop at a given address: implicit TLS
dials with TLS; explicit upgrade dials in clear then upgrades in band
(either step failing fails the attempt); plain mode dials in clear. -/
def hostAttempt (cfg : ServerConfig) (env : DialEnv) (address : Str) :
    Option GoError :=
  if cfg.UseSSL then
    if cfg.StartTLS then
      match env.tcpDialRes address with
      | some e => some e
      | none => env.startTLSRes address
    else env.tlsDialRes address
  else env.tcpDialRes address

/-- The transport addresses `Dial` iterates: the space-separated host
list in configured order, IPv6 brackets stripped, joined with the port. -/
def dialAddresses (cfg : ServerConfig) : List Str :=
  (splitOnByte 32 cfg.Host).map
    (fun h => joinHostPort (trimSuffixL (trimPrefixL h (str ("["))) (str ("]"))) cfg.Port)

/-- `Dial`'s host loop: first success returns immediately; otherwise the
error of the last attempt survives (`err` is overwritten each round).
Returns the attempted addresses and the final `err`. -/
def dialLoop (f : Str → Option GoError) : List Str → List Str × Option GoError
  | [] => ([], none)
  | a :: rest =>
    match f a with
    | none => ([a], none)
    | some e =>
      match rest with
      | [] => ([a], some e)
      | b :: t => (a :: (dialLoop f (b :: t)).1, (dialLoop f (b :: t)).2)

/-- `Dial`: load trust material, then try each address in order. -/
def Dial (cfg : ServerConfig) (env : DialEnv) : List Str × Option GoError :=
  match (if cfg.RootCACert.isEmpty then none else env.caLoad) with
  | some e => ([], some e)
  | none =>
    match (if !cfg.ClientCert.isEmpty && !cfg.ClientKey.isEmpty
           then env.clientCertLoad else none) with
    | some e => ([], some e)
    | none => dialLoop (hostAttempt cfg env) (dialAddresses cfg)

/-! ### Concrete scenarios used to instantiate the theorems -/

/-- Base attribute map of the concrete scenarios. -/
def attrStd : AttributeMap :=
  { Username := str ("uid"), Name := str ("givenName"),
    Surname := str ("sn"), Email := str ("mail"), MemberOf := [] }

/-- Admin-bind endpoint used for the rejection-kind scenarios. -/
def cfgC1 : ServerConfig :=
  { Host := str ("ldap"), Port := 389, UseSSL := false, StartTLS := false,
    SkipVerifySSL := false, RootCACert := [], ClientCert := [], ClientKey := [],
    BindDN := str ("cn=admin,dc=example"), BindPassword := str ("adminpw"),
    Attr := attrStd, SearchFilter := str ("(uid=%s)"),
    SearchBaseDNs := [str ("dc=example")], GroupSearchFilter := [],
    GroupSearchFilterUserAttribute := [], GroupSearchBaseDNs := [] }

/-- Directory with no matching entry: every search yields zero entries. -/
def connC1NotFound : ConnBehavior :=
  { bindRes := fun _ _ => none, unauthBindRes := fun _ => none,
    searchRes := fun _ => Except.ok { Entries := [] } }

/-- The entry the directory resolves for `alice`. -/
def entryC1 : Entry :=
  { DN := str ("uid=alice,dc=example"),
    Attributes := [{ Name := str ("givenName"), Values := [str ("Alice")] }] }

/-- Directory that finds `alice` but rejects every non-admin bind with
the invalid-credentials result code 49. -/
def connC1BadPw : ConnBehavior :=
  { bindRes := fun dn _ =>
      if dn = str ("cn=admin,dc=example") then none
      else some (GoError.ldapError 49),
    unauthBindRes := fun _ => none,
    searchRes := fun _ => Except.ok { Entries := [entryC1] } }

/-- Admin-bind endpoint of the verification-bind scenario. -/
def cfgC2 : ServerConfig :=
  { Host := str ("ldap"), Port := 389, UseSSL := false, StartTLS := false,
    SkipVerifySSL := false, RootCACert := [], ClientCert := [], ClientKey := [],
    BindDN := str ("cn=admin,dc=example"), BindPassword := str ("adminpw"),
    Attr := attrStd, SearchFilter := str ("(uid=%s)"),
    SearchBaseDNs := [str ("dc=example")], GroupSearchFilter := [],
    GroupSearchFilterUserAttribute := [], GroupSearchBaseDNs := [] }

/-- The entry resolved for `carol`: its DN differs from every display
name the attribute values can produce. -/
def entryC2 : Entry :=
  { DN := str ("uid=carol,dc=example"),
    Attributes :=
      [{ Name := str ("givenName"), Values := [str ("Carol")] },
       { Name := str ("sn"), Values := [str ("Jones")] }] }

/-- Directory where every bind succeeds and the search finds `carol`. -/
def connC2 : ConnBehavior :=
  { bindRes := fun _ _ => none, unauthBindRes := fun _ => none,
    searchRes := fun _ => Except.ok { Entries := [entryC2] } }

/-- Single-base endpoint of the batching scenario. -/
def cfgC4 : ServerConfig :=
  { Host := str ("ldap"), Port := 389, UseSSL := false, StartTLS := false,
    SkipVerifySSL := false, RootCACert := [], ClientCert := [], ClientKey := [],
    BindDN := str ("cn=admin,dc=example"), BindPassword := str ("adminpw"),
    Attr := attrStd, SearchFilter := str ("(uid=%s)"),
    SearchBaseDNs := [str ("dc=example")], GroupSearchFilter := [],
    GroupSearchFilterUserAttribute := [], GroupSearchBaseDNs := [] }

/-- A directory entry returned for every batch search. -/
def entryC4 : Entry :=
  { DN := str ("uid=a,dc=example"), Attributes := [] }

/-- Directory answering every search with exactly one entry. -/
def connC4 : ConnBehavior :=
  { bindRes := fun _ _ => none, unauthBindRes := fun _ => none,
    searchRes := fun _ => Except.ok { Entries := [entryC4] } }

/-- Endpoint of the filter-construction scenario. -/
def cfgC5 : ServerConfig :=
  { Host := str ("ldap"), Port := 389, UseSSL := false, StartTLS := false,
    SkipVerifySSL := false, RootCACert := [], ClientCert := [], ClientKey := [],
    BindDN := str ("cn=admin,dc=example"), BindPassword := str ("adminpw"),
    Attr := attrStd, SearchFilter := str ("(uid=%s)"),
    SearchBaseDNs := [str ("dc=example")], GroupSearchFilter := [],
    GroupSearchFilterUserAttribute := [], GroupSearchBaseDNs := [] }

/-- Two-host endpoint of the failover scenario. -/
def cfgC6 : ServerConfig :=
  { Host := str ("h1 h2"), Port := 389, UseSSL := false, StartTLS := false,
    SkipVerifySSL := false, RootCACert := [], ClientCert := [], ClientKey := [],
    BindDN := [], BindPassword := [], Attr := attrStd, SearchFilter := [],
    SearchBaseDNs := [], GroupSearchFilter := [],
    GroupSearchFilterUserAttribute := [], GroupSearchBaseDNs := [] }

/-- Transport where the first host is unreachable and the second one
accepts the connection. -/
def envC6 : DialEnv :=
  { caLoad := none, clientCertLoad := none,
    tcpDialRes := fun a => if a = str ("h2:389") then none else some (GoError.other 7),
    tlsDialRes := fun _ => some (GoError.other 8),
    startTLSRes := fun _ => some (GoError.other 9) }

/-- Single-bind endpoint: templated bind DN, no bind password. -/
def cfgC7 : ServerConfig :=
  { Host := str ("ldap"), Port := 389, UseSSL := false, StartTLS := false,
    SkipVerifySSL := false, RootCACert := [], ClientCert := [], ClientKey := [],
    BindDN := str ("uid=%s,dc=example"), BindPassword := [],
    Attr := attrStd, SearchFilter := str ("(uid=%s)"),
    SearchBaseDNs := [str ("dc=example")], GroupSearchFilter := [],
    GroupSearchFilterUserAttribute := [], GroupSearchBaseDNs := [] }

/-- The entry resolved for `bob`. -/
def entryC7 : Entry :=
  { DN := str ("uid=bob,dc=example"),
    Attributes := [{ Name := str ("givenName"), Values := [str ("Bob")] }] }

/-- Directory where the user bind succeeds and the search finds `bob`. -/
def connC7 : ConnBehavior :=
  { bindRes := fun _ _ => none, unauthBindRes := fun _ => none,
    searchRes := fun _ => Except.ok { Entries := [entryC7] } }

/-- Endpoint of the entry-mapping scenario. -/
def cfgC8 : ServerConfig :=
  { Host := str ("ldap"), Port := 389, UseSSL := false, StartTLS := false,
    SkipVerifySSL := false, RootCACert := [], ClientCert := [], ClientKey := [],
    BindDN := str ("cn=admin,dc=example"), BindPassword := str ("adminpw"),
    Attr := attrStd, SearchFilter := str ("(uid=%s)"),
    SearchBaseDNs := [str ("dc=example")], GroupSearchFilter := [],
    GroupSearchFilterUserAttribute := [], GroupSearchBaseDNs := [] }

/-- Entry with name, surname and email attributes. -/
def entryJane : Entry :=
  { DN := str ("uid=jane,dc=x"),
    Attributes :=
      [{ Name := str ("givenName"), Values := [str ("Jane")] },
       { Name := str ("sn"), Values := [str ("Doe")] },
       { Name := str ("mail"), Values := [str ("jane@x.com")] }] }

/-- The same entry with the surname attribute absent. -/
def entryJaneNoSn : Entry :=
  { DN := str ("uid=jane,dc=x"),
    Attributes :=
      [{ Name := str ("givenName"), Values := [str ("Jane")] },
       { Name := str ("mail"), Values := [str ("jane@x.com")] }] }

/-- Admin-bind endpoint with an empty search-base list. -/
def cfgC9 : ServerConfig :=
  { Host := str ("ldap"), Port := 389, UseSSL := false, StartTLS := false,
    SkipVerifySSL := false, RootCACert := [], ClientCert := [], ClientKey := [],
    BindDN := str ("cn=admin,dc=example"), BindPassword := str ("adminpw"),
    Attr := attrStd, SearchFilter := str ("(uid=%s)"),
    SearchBaseDNs := [], GroupSearchFilter := [],
    GroupSearchFilterUserAttribute := [], GroupSearchBaseDNs := [] }

/-- Directory whose binds all succeed (no search is ever answered). -/
def connC9 : ConnBehavior :=
  { bindRes := fun _ _ => none, unauthBindRes := fun _ => none,
    searchRes := fun _ => Except.ok { Entries := [] } }

/-- Single-bind endpoint of the verbatim-substitution scenario. -/
def cfgC10 : ServerConfig :=
  { Host := str ("ldap"), Port := 389, UseSSL := false, StartTLS := false,
    SkipVerifySSL := false, RootCACert := [], ClientCert := [], ClientKey := [],
    BindDN := str ("uid=%s,dc=example"), BindPassword := [],
    Attr := attrStd, SearchFilter := str ("(uid=%s)"),
    SearchBaseDNs := [str ("dc=example")], GroupSearchFilter := [],
    GroupSearchFilterUserAttribute := [], GroupSearchBaseDNs := [] }

/-- Directory for the verbatim-substitution scenario. -/
def connC10 : ConnBehavior :=
  { bindRes := fun _ _ => none, unauthBindRes := fun _ => none,
    searchRes := fun _ => Except.ok { Entries := [] } }

/-! ### Helper lemmas -/

lemma appendIfNotEmpty_eq_filter (vs : List Str) :
    ∀ slice, appendIfNotEmpty slice vs =
      slice ++ vs.filter (fun v => !v.isEmpty) := by
  induction vs with
  | nil => intro slice; simp [appendIfNotEmpty]
  | cons v vs ih =>
    intro slice
    by_cases h : v = []
    · subst h
      simp [appendIfNotEmpty, ih, List.filter]
    · cases v with
      | nil => exact absurd rfl h
      | cons a t =>
        simp [appendIfNotEmpty, ih, List.filter, List.append_assoc]

lemma hexChar_not_meta (n : Nat) :
    ¬(hexChar n = 0 ∨ hexChar n = 40 ∨ hexChar n = 41 ∨ hexChar n = 42) := by
  unfold hexChar
  split <;> omega

lemma filterMetaFree_append (a b : Str) :
    filterMetaFree (a ++ b) = (filterMetaFree a && filterMetaFree b) := by
  induction a with
  | nil => simp [filterMetaFree]
  | cons c t ih => simp [filterMetaFree, ih, Bool.and_assoc]

lemma escapeFilter_metaFree (s : Str) : filterMetaFree (escapeFilter s) = true := by
  induction s with
  | nil => rfl
  | cons c t ih =>
    show filterMetaFree (escByte c ++ escapeFilter t) = true
    rw [filterMetaFree_append, ih, Bool.and_true]
    unfold escByte
    by_cases h : mustEscape c = true
    · rw [if_pos h]
      have m1 := hexChar_not_meta (c / 16)
      have m2 := hexChar_not_meta (c % 16)
      simp [filterMetaFree, m1, m2]
    · rw [if_neg h]
      have h2 : ¬(127 < c ∨ c = 40 ∨ c = 41 ∨ c = 92 ∨ c = 42 ∨ c = 0) := by
        simpa [mustEscape] using h
      simp only [filterMetaFree, Bool.and_true, decide_eq_true_eq]
      omega

lemma hexChar_isHexLower (n : Nat) (h : n < 16) : isHexLower (hexChar n) = true := by
  revert h
  revert n
  decide

lemma escapeFilter_wellEscaped (s : Str) (hb : ∀ b ∈ s, b < 256) :
    wellEscaped (escapeFilter s) = true := by
  induction s with
  | nil => rfl
  | cons c t ih =>
    have hc : c < 256 := hb c (List.mem_cons_self c t)
    have iht : wellEscaped (escapeFilter t) = true :=
      ih (fun b hbm => hb b (List.mem_cons_of_mem c hbm))
    show wellEscaped (escByte c ++ escapeFilter t) = true
    unfold escByte
    by_cases h : mustEscape c = true
    · rw [if_pos h]
      have ih1 : isHexLower (hexChar (c / 16)) = true := hexChar_isHexLower _ (by omega)
      have ih2 : isHexLower (hexChar (c % 16)) = true := hexChar_isHexLower _ (by omega)
      have e1 : wellEscaped (92 :: hexChar (c / 16) :: hexChar (c % 16) :: escapeFilter t)
          = (isHexLower (hexChar (c / 16)) &&
              (isHexLower (hexChar (c % 16)) && wellEscapedSt 0 (escapeFilter t))) := by
        simp [wellEscaped, wellEscapedSt, Bool.and_assoc]
      show wellEscaped (92 :: hexChar (c / 16) :: hexChar (c % 16) :: escapeFilter t) = true
      rw [e1, ih1, ih2]
      simpa [wellEscaped] using iht
    · rw [if_neg h]
      have h2 : ¬(127 < c ∨ c = 40 ∨ c = 41 ∨ c = 92 ∨ c = 42 ∨ c = 0) := by
        simpa [mustEscape] using h
      show wellEscaped (c :: escapeFilter t) = true
      simp only [wellEscaped, wellEscapedSt]
      rw [if_neg (by omega : ¬c = 92)]
      simpa [wellEscaped] using iht

lemma batchRanges_length (n : Nat) :
    (batchRanges n).length = usersIterations n := by
  simp [batchRanges]

lemma usersIterations_pos (n : Nat) (h : 0 < n) : 0 < usersIterations n := by
  unfold usersIterations UsersMaxRequest
  omega

lemma batchRanges_ne_nil (n : Nat) (h : 0 < n) : batchRanges n ≠ [] := by
  have hl := batchRanges_length n
  have hp := usersIterations_pos n h
  intro he
  rw [he] at hl
  simp at hl
  omega

lemma batchRanges_get (n : Nat) (i : Nat) (hi : i < (batchRanges n).length) :
    (batchRanges n).get ⟨i, hi⟩ =
      (UsersMaxRequest * i, min (UsersMaxRequest * (i + 1)) n) := by
  simp [batchRanges]

lemma usersLoop_shift (cfg : ServerConfig) (c : ConnBehavior) (logins : List Str) :
    ∀ (bases : List Str) (last : Option SearchResult) (tr : List ConnOp),
      usersLoop cfg c logins bases tr last =
        (tr ++ (usersLoop cfg c logins bases [] last).1,
         (usersLoop cfg c logins bases [] last).2) := by
  intro bases
  induction bases with
  | nil => intro last tr; cases last <;> simp [usersLoop]
  | cons base rest ih =>
    intro last tr
    simp only [usersLoop]
    cases hs : c.searchRes (getSearchRequest cfg base logins) with
    | error e => simp
    | ok r =>
      by_cases he : r.Entries = []
      · simp only [he, if_pos rfl]
        rw [ih (some r) (tr ++ [ConnOp.searchOp (getSearchRequest cfg base logins)]),
            ih (some r) ([] ++ [ConnOp.searchOp (getSearchRequest cfg base logins)])]
        simp [List.append_assoc]
      · simp [he]

lemma users_shift (cfg : ServerConfig) (c : ConnBehavior) (tr : List ConnOp)
    (logins : List Str) :
    users cfg c tr logins =
      (tr ++ (users cfg c [] logins).1, (users cfg c [] logins).2) := by
  unfold users
  exact usersLoop_shift cfg c logins cfg.SearchBaseDNs none tr

lemma usersLoop_ops (cfg : ServerConfig) (c : ConnBehavior) (logins : List Str) :
    ∀ (bases : List Str) (last : Option SearchResult) (op : ConnOp),
      op ∈ (usersLoop cfg c logins bases [] last).1 → isSearchOp op = true := by
  intro bases
  induction bases with
  | nil => intro last op hop; cases last <;> simp [usersLoop] at hop
  | cons base rest ih =>
    intro last op hop
    revert hop
    simp only [usersLoop]
    cases hs : c.searchRes (getSearchRequest cfg base logins) with
    | error e =>
      intro hop
      simp at hop
      subst hop
      rfl
    | ok r =>
      by_cases he : r.Entries = []
      · simp only [he, if_pos rfl]
        rw [usersLoop_shift cfg c logins rest (some r)
              ([] ++ [ConnOp.searchOp (getSearchRequest cfg base logins)])]
        intro hop
        simp at hop
        rcases hop with hop | hop
        · subst hop; rfl
        · exact ih (some r) op hop
      · intro hop
        simp [he] at hop
        subst hop
        rfl

lemma users_ops (cfg : ServerConfig) (c : ConnBehavior) (logins : List Str)
    (op : ConnOp) (hop : op ∈ (users cfg c [] logins).1) : isSearchOp op = true :=
  usersLoop_ops cfg c logins cfg.SearchBaseDNs none op hop

lemma usersBatches_shift (cfg : ServerConfig) (c : ConnBehavior) (logins : List Str) :
    ∀ (ranges : List (Nat × Nat)) (acc : List Entry) (tr : List ConnOp),
      usersBatches cfg c logins ranges tr acc =
        (tr ++ (usersBatches cfg c logins ranges [] acc).1,
         (usersBatches cfg c logins ranges [] acc).2) := by
  intro ranges
  induction ranges with
  | nil => intro acc tr; simp [usersBatches]
  | cons pc rest ih =>
    intro acc tr
    obtain ⟨p, cur⟩ := pc
    simp only [usersBatches]
    rw [users_shift cfg c tr ((logins.drop p).take (cur - p)),
        users_shift cfg c [] ((logins.drop p).take (cur - p))]
    cases hr : (users cfg c [] ((logins.drop p).take (cur - p))).2 with
    | error e => simp
    | ok es =>
      simp only [List.nil_append]
      rw [ih (acc ++ es) (tr ++ (users cfg c [] ((logins.drop p).take (cur - p))).1),
          ih (acc ++ es) ((users cfg c [] ((logins.drop p).take (cur - p))).1)]
      simp [List.append_assoc]

lemma usersBatches_ops (cfg : ServerConfig) (c : ConnBehavior) (logins : List Str) :
    ∀ (ranges : List (Nat × Nat)) (acc : List Entry) (op : ConnOp),
      op ∈ (usersBatches cfg c logins ranges [] acc).1 → isSearchOp op = true := by
  intro ranges
  induction ranges with
  | nil => intro acc op hop; simp [usersBatches] at hop
  | cons pc rest ih =>
    intro acc op hop
    obtain ⟨p, cur⟩ := pc
    revert hop
    simp only [usersBatches]
    rw [users_shift cfg c [] ((logins.drop p).take (cur - p))]
    cases hr : (users cfg c [] ((logins.drop p).take (cur - p))).2 with
    | error e =>
      intro hop
      simp at hop
      exact users_ops cfg c ((logins.drop p).take (cur - p)) op hop
    | ok es =>
      simp only []
      rw [usersBatches_shift cfg c logins rest (acc ++ es)
            ([] ++ (users cfg c [] ((logins.drop p).take (cur - p))).1)]
      intro hop
      simp at hop
      rcases hop with hop | hop
      · exact users_ops cfg c ((logins.drop p).take (cur - p)) op hop
      · exact ih (acc ++ es) op hop

lemma Users_shift (cfg : ServerConfig) (c : ConnBehavior) (tr : List ConnOp)
    (logins : List Str) :
    Users cfg c tr logins =
      (tr ++ (Users cfg c [] logins).1, (Users cfg c [] logins).2) := by
  unfold Users
  rw [usersBatches_shift cfg c logins (batchRanges logins.length) [] tr]
  cases hb : usersBatches cfg c logins (batchRanges logins.length) [] [] with
  | mk tr2 r =>
    cases r with
    | error e => simp
    | ok entries =>
      by_cases he : entries = [] <;> simp [he]

lemma Users_trace (cfg : ServerConfig) (c : ConnBehavior) (tr : List ConnOp)
    (logins : List Str) :
    (Users cfg c tr logins).1 =
      tr ++ (usersBatches cfg c logins (batchRanges logins.length) [] []).1 := by
  unfold Users
  rw [usersBatches_shift cfg c logins (batchRanges logins.length) [] tr]
  cases hb : usersBatches cfg c logins (batchRanges logins.length) [] [] with
  | mk tr2 r =>
    cases r with
    | error e => simp
    | ok entries =>
      by_cases he : entries = [] <;> simp [he]

lemma Users_ops (cfg : ServerConfig) (c : ConnBehavior) (logins : List Str)
    (op : ConnOp) (hop : op ∈ (Users cfg c [] logins).1) : isSearchOp op = true := by
  rw [Users_trace cfg c [] logins] at hop
  simp only [List.nil_append] at hop
  exact usersBatches_ops cfg c logins (batchRanges logins.length) [] op hop

lemma users_first_hit (cfg : ServerConfig) (c : ConnBehavior) (bd : Str)
    (rest : List Str) (e : Entry)
    (hbd : cfg.SearchBaseDNs = bd :: rest)
    (hs : ∀ req, c.searchRes req = Except.ok { Entries := [e] })
    (tr : List ConnOp) (logins : List Str) :
    users cfg c tr logins =
      (tr ++ [ConnOp.searchOp (getSearchRequest cfg bd logins)], Except.ok [e]) := by
  unfold users
  rw [hbd]
  simp only [usersLoop]
  rw [hs (getSearchRequest cfg bd logins)]
  simp

lemma usersBatches_single (cfg : ServerConfig) (c : ConnBehavior) (bd : Str)
    (e : Entry) (logins : List Str)
    (hbd : cfg.SearchBaseDNs = [bd])
    (hs : ∀ req, c.searchRes req = Except.ok { Entries := [e] }) :
    ∀ (ranges : List (Nat × Nat)) (tr : List ConnOp) (acc : List Entry),
      usersBatches cfg c logins ranges tr acc =
        (tr ++ ranges.map (fun r =>
            ConnOp.searchOp (getSearchRequest cfg bd ((logins.drop r.1).take (r.2 - r.1)))),
         Except.ok (acc ++ ranges.map (fun _ => e))) := by
  intro ranges
  induction ranges with
  | nil => intro tr acc; simp [usersBatches]
  | cons pc rest ih =>
    intro tr acc
    obtain ⟨p, cur⟩ := pc
    simp only [usersBatches]
    rw [users_first_hit cfg c bd [] e hbd hs tr ((logins.drop p).take (cur - p))]
    simp only []
    rw [ih (tr ++ [ConnOp.searchOp (getSearchRequest cfg bd ((logins.drop p).take (cur - p)))])
          (acc ++ [e])]
    simp [List.append_assoc]

lemma Users_trace_length_single (cfg : ServerConfig) (c : ConnBehavior) (bd : Str)
    (e : Entry) (logins : List Str)
    (hbd : cfg.SearchBaseDNs = [bd])
    (hs : ∀ req, c.searchRes req = Except.ok { Entries := [e] }) :
    (Users cfg c [] logins).1.length = usersIterations logins.length := by
  rw [Users_trace cfg c [] logins]
  rw [usersBatches_single cfg c bd e logins hbd hs (batchRanges logins.length) [] []]
  simp [batchRanges_length]

lemma usersLoop_all_empty (cfg : ServerConfig) (c : ConnBehavior) (logins : List Str)
    (hs : ∀ req, c.searchRes req = Except.ok { Entries := [] }) :
    ∀ (bases : List Str) (last : Option SearchResult) (tr : List ConnOp),
      bases ≠ [] → (usersLoop cfg c logins bases tr last).2 = Except.ok [] := by
  intro bases
  induction bases with
  | nil => intro last tr h; exact absurd rfl h
  | cons base rest ih =>
    intro last tr _
    simp only [usersLoop]
    rw [hs (getSearchRequest cfg base logins)]
    simp only [if_pos rfl]
    cases rest with
    | nil => simp [usersLoop]
    | cons b t => exact ih (some { Entries := [] }) _ (by simp)

lemma usersBatches_all_empty (cfg : ServerConfig) (c : ConnBehavior) (logins : List Str)
    (hs : ∀ req, c.searchRes req = Except.ok { Entries := [] })
    (hne : cfg.SearchBaseDNs ≠ []) :
    ∀ (ranges : List (Nat × Nat)) (tr : List ConnOp) (acc : List Entry),
      (usersBatches cfg c logins ranges tr acc).2 = Except.ok acc := by
  intro ranges
  induction ranges with
  | nil => intro tr acc; simp [usersBatches]
  | cons pc rest ih =>
    intro tr acc
    obtain ⟨p, cur⟩ := pc
    simp only [usersBatches]
    cases hu : users cfg c tr ((logins.drop p).take (cur - p)) with
    | mk tr2 r =>
      have hr : r = Except.ok [] := by
        have h2 := usersLoop_all_empty cfg c ((logins.drop p).take (cur - p)) hs
          cfg.SearchBaseDNs none tr hne
        rw [show usersLoop cfg c ((logins.drop p).take (cur - p)) cfg.SearchBaseDNs tr none
              = users cfg c tr ((logins.drop p).take (cur - p)) from rfl, hu] at h2
        exact h2
      subst hr
      simp only []
      rw [show acc ++ ([] : List Entry) = acc from by simp]
      exact ih tr2 acc

lemma Users_all_empty (cfg : ServerConfig) (c : ConnBehavior) (tr : List ConnOp)
    (logins : List Str)
    (hs : ∀ req, c.searchRes req = Except.ok { Entries := [] })
    (hne : cfg.SearchBaseDNs ≠ []) :
    (Users cfg c tr logins).2 = Except.ok [] := by
  unfold Users
  cases hb : usersBatches cfg c logins (batchRanges logins.length) tr [] with
  | mk tr2 r =>
    have hr : r = Except.ok [] := by
      have h2 := usersBatches_all_empty cfg c logins hs hne
        (batchRanges logins.length) tr []
      rw [hb] at h2
      exact h2
    subst hr
    simp

lemma users_nil_bases (cfg : ServerConfig) (c : ConnBehavior) (tr : List ConnOp)
    (logins : List Str) (h : cfg.SearchBaseDNs = []) :
    users cfg c tr logins = (tr, Except.error GoError.nilPointerDereference) := by
  unfold users
  rw [h]
  rfl

lemma Users_nil_bases (cfg : ServerConfig) (c : ConnBehavior) (tr : List ConnOp)
    (logins : List Str) (h : cfg.SearchBaseDNs = []) (hne : logins ≠ []) :
    (Users cfg c tr logins).2 = Except.error GoError.nilPointerDereference := by
  unfold Users
  obtain ⟨r, rest, hr⟩ :=
    List.exists_cons_of_ne_nil
      (batchRanges_ne_nil logins.length (List.length_pos.mpr hne))
  rw [hr]
  obtain ⟨p, cur⟩ := r
  simp only [usersBatches]
  rw [users_nil_bases cfg c tr ((logins.drop p).take (cur - p)) h]

lemma getAttributeFrom_absent (name : Str) :
    ∀ (attrs : List EntryAttribute), (∀ a ∈ attrs, a.Name ≠ name) →
      getAttributeFrom name attrs = [] := by
  intro attrs
  induction attrs with
  | nil => intro _; rfl
  | cons a rest ih =>
    intro h
    simp only [getAttributeFrom]
    rw [if_neg (h a (List.mem_cons_self a rest))]
    exact ih (fun b hb => h b (List.mem_cons_of_mem a hb))

lemma sprintf1Aux_no_pct (arg : Str) :
    ∀ (s : Str), (∀ b ∈ s, b ≠ 37) → sprintf1Aux arg true s = s := by
  intro s
  induction s with
  | nil => intro _; rfl
  | cons c t ih =>
    intro h
    have hc : c ≠ 37 := h c (List.mem_cons_self c t)
    rw [sprintf1Aux.eq_def]
    simp only [hc, if_false]
    exact congrArg (c :: ·) (ih (fun b hb => h b (List.mem_cons_of_mem c hb)))

lemma sprintf1_template (pre suf arg : Str)
    (hpre : ∀ b ∈ pre, b ≠ 37) (hsuf : ∀ b ∈ suf, b ≠ 37) :
    sprintf1 (pre ++ str ("%s") ++ suf) arg = pre ++ arg ++ suf := by
  unfold sprintf1
  induction pre with
  | nil =>
    show sprintf1Aux arg false (37 :: 115 :: suf) = [] ++ arg ++ suf
    rw [sprintf1Aux.eq_def]
    simp [sprintf1Aux_no_pct arg suf hsuf]
  | cons c pre ih =>
    have hc : c ≠ 37 := hpre c (List.mem_cons_self c pre)
    show sprintf1Aux arg false (c :: (pre ++ str ("%s") ++ suf)) = (c :: pre) ++ arg ++ suf
    rw [sprintf1Aux.eq_def]
    simp only [hc, if_false]
    rw [ih (fun b hb => hpre b (List.mem_cons_of_mem c hb))]
    simp

lemma hasPrefixL_self_append (pat r : Str) : hasPrefixL pat (pat ++ r) = true := by
  induction pat with
  | nil => rfl
  | cons p ps ih => simp [hasPrefixL, ih]

lemma containsSub_append_left (x y pat : Str) (h : containsSub y pat = true) :
    containsSub (x ++ y) pat = true := by
  induction x with
  | nil => simpa using h
  | cons c t ih => simp [containsSub, ih]

lemma containsSub_self_append (pat r : Str) (hne : pat ≠ []) :
    containsSub (pat ++ r) pat = true := by
  cases pat with
  | nil => exact absurd rfl hne
  | cons p ps =>
    have h1 : hasPrefixL (p :: ps) ((p :: ps) ++ r) = true :=
      hasPrefixL_self_append (p :: ps) r
    show containsSub (p :: (ps ++ r)) (p :: ps) = true
    simp only [containsSub]
    have h2 : hasPrefixL (p :: ps) (p :: (ps ++ r)) = true := h1
    rw [h2]
    simp

lemma dialLoop_first_success (f : Str → Option GoError) :
    ∀ (l : List Str) (i : Nat) (hi : i < l.length),
      (∀ j (hj : j < i), f (l.get ⟨j, lt_trans hj hi⟩) ≠ none) →
      f (l.get ⟨i, hi⟩) = none →
      dialLoop f l = (l.take (i + 1), none) := by
  intro l
  induction l with
  | nil => intro i hi; simp at hi
  | cons a rest ih =>
    intro i hi hprev hcur
    cases i with
    | zero =>
      have hcur2 : f a = none := hcur
      rw [dialLoop.eq_def]
      simp [hcur2]
    | succ i2 =>
      have ha : f a ≠ none := by
        have := hprev 0 (Nat.succ_pos i2)
        simpa [List.get] using this
      cases hfa : f a with
      | none => exact absurd hfa ha
      | some e =>
        cases rest with
        | nil => simp at hi
        | cons b t =>
          have hi2 : i2 < (b :: t).length := by simpa using hi
          have hprev2 : ∀ j (hj : j < i2), f ((b :: t).get ⟨j, lt_trans hj hi2⟩) ≠ none := by
            intro j hj
            have := hprev (j + 1) (Nat.succ_lt_succ hj)
            simpa [List.get] using this
          have hcur2 : f ((b :: t).get ⟨i2, hi2⟩) = none := hcur
          rw [dialLoop.eq_def]
          simp only [hfa]
          rw [ih i2 hi2 hprev2 hcur2]
          simp [List.take_succ_cons]

lemma dialLoop_all_fail (f : Str → Option GoError) :
    ∀ (l : List Str) (h : l ≠ []),
      (∀ a ∈ l, f a ≠ none) → dialLoop f l = (l, f (l.getLast h)) := by
  intro l
  induction l with
  | nil => intro h; exact absurd rfl h
  | cons a rest ih =>
    intro h hall
    have ha : f a ≠ none := hall a (List.mem_cons_self a rest)
    cases hfa : f a with
    | none => exact absurd hfa ha
    | some e =>
      cases rest with
      | nil =>
        rw [dialLoop.eq_def]
        simp [hfa, List.getLast]
      | cons b t =>
        have hbt : (b :: t) ≠ [] := by simp
        rw [dialLoop.eq_def]
        simp only [hfa]
        rw [ih hbt (fun x hx => hall x (List.mem_cons_of_mem a hx))]
        rw [List.getLast_cons hbt]

lemma isBindOp_eq_false (op : ConnOp) (h : isSearchOp op = true) :
    isBindOp op = false := by
  cases op <;> simp [isSearchOp, isBindOp] at h ⊢

lemma filter_isBindOp_users_nil (cfg : ServerConfig) (c : ConnBehavior)
    (logins : List Str) :
    (Users cfg c [] logins).1.filter isBindOp = [] := by
  rw [List.filter_eq_nil_iff]
  intro op hop
  rw [isBindOp_eq_false op (Users_ops cfg c logins op hop)]
  simp

lemma login_singleBind_binds (cfg : ServerConfig) (c : ConnBehavior) (q : LoginData)
    (h1 : cfg.BindPassword = []) (h2 : shouldSingleBind cfg = true) :
    (Login cfg c q).1.filter isBindOp =
      [ConnOp.bindOp (singleBindDN cfg q.Name) q.Password] := by
  have hadmin : shouldAdminBind cfg = false := by
    simp [shouldAdminBind, h1]
  unfold Login
  rw [hadmin, h2]
  simp only [Bool.false_eq_true, if_false, if_true]
  unfold UserBind userBind
  cases hb : c.bindRes (singleBindDN cfg q.Name) q.Password with
  | some e =>
    simp [hb, List.filter, isBindOp]
  | none =>
    simp only [hb]
    unfold loginAfterBind
    simp only [List.nil_append]
    rw [Users_shift cfg c [ConnOp.bindOp (singleBindDN cfg q.Name) q.Password] [q.Name]]
    cases hU : Users cfg c [] [q.Name] with
    | mk trU RU =>
      have hfil : trU.filter isBindOp = [] := by
        have := filter_isBindOp_users_nil cfg c [q.Name]
        rw [hU] at this
        exact this
      cases RU with
      | error e =>
        simp [List.filter_append, hfil, List.filter, isBindOp]
      | ok us =>
        cases us with
        | nil => simp [List.filter_append, hfil, List.filter, isBindOp]
        | cons u us2 =>
          simp [validateGoldenUser, List.filter_append, hfil, List.filter, isBindOp]

lemma Users_singleton_hit (cfg : ServerConfig) (c : ConnBehavior) (bd : Str)
    (rest : List Str) (e : Entry) (tr : List ConnOp) (name : Str)
    (hbd : cfg.SearchBaseDNs = bd :: rest)
    (hs : ∀ req, c.searchRes req = Except.ok { Entries := [e] }) :
    Users cfg c tr [name] =
      (tr ++ [ConnOp.searchOp (getSearchRequest cfg bd [name])],
       Except.ok [buildGoldenUser cfg e]) := by
  unfold Users
  have hbr : batchRanges ([name] : List Str).length = [(0, 1)] := by
    show batchRanges 1 = [(0, 1)]
    decide
  rw [hbr]
  simp only [usersBatches]
  rw [show (([name] : List Str).drop 0).take (1 - 0) = [name] from rfl]
  rw [users_first_hit cfg c bd rest e hbd hs tr [name]]
  simp [serializeUsers]

lemma login_admin_not_found (cfg : ServerConfig) (c : ConnBehavior) (q : LoginData)
    (hadm : shouldAdminBind cfg = true)
    (hbind : c.bindRes cfg.BindDN cfg.BindPassword = none)
    (hs : ∀ req, c.searchRes req = Except.ok { Entries := [] })
    (hne : cfg.SearchBaseDNs ≠ []) :
    (Login cfg c q).2 = Except.error GoError.couldNotFindUser := by
  unfold Login
  rw [hadm]
  simp only [if_true]
  unfold AdminBind userBind
  rw [hbind]
  simp only []
  unfold loginAfterBind
  simp only [List.nil_append]
  cases hU : Users cfg c [ConnOp.bindOp cfg.BindDN cfg.BindPassword] [q.Name] with
  | mk trU RU =>
    have hRU : RU = Except.ok [] := by
      have := Users_all_empty cfg c [ConnOp.bindOp cfg.BindDN cfg.BindPassword] [q.Name] hs hne
      rw [hU] at this
      exact this
    subst hRU
    simp

lemma login_admin_invalid_credentials (cfg : ServerConfig) (c : ConnBehavior)
    (q : LoginData) (bd : Str) (rest : List Str) (e : Entry)
    (hadm : shouldAdminBind cfg = true)
    (hbind : c.bindRes cfg.BindDN cfg.BindPassword = none)
    (hbd : cfg.SearchBaseDNs = bd :: rest)
    (hs : ∀ req, c.searchRes req = Except.ok { Entries := [e] })
    (h49 : c.bindRes (buildGoldenUser cfg e).Name q.Password =
      some (GoError.ldapError 49)) :
    (Login cfg c q).2 = Except.error GoError.invalidCredentials := by
  unfold Login
  rw [hadm]
  simp only [if_true]
  unfold AdminBind userBind
  rw [hbind]
  simp only []
  unfold loginAfterBind
  simp only [List.nil_append]
  rw [Users_singleton_hit cfg c bd rest e
        [ConnOp.bindOp cfg.BindDN cfg.BindPassword] q.Name hbd hs]
  simp only [validateGoldenUser]
  unfold UserBind userBind
  rw [h49]
  simp [mapBindError]

lemma login_admin_nil_bases (cfg : ServerConfig) (c : ConnBehavior) (q : LoginData)
    (hnil : cfg.SearchBaseDNs = [])
    (hadm : shouldAdminBind cfg = true)
    (hbind : c.bindRes cfg.BindDN cfg.BindPassword = none) :
    (Login cfg c q).2 = Except.error GoError.nilPointerDereference := by
  unfold Login
  rw [hadm]
  simp only [if_true]
  unfold AdminBind userBind
  rw [hbind]
  simp only []
  unfold loginAfterBind
  simp only [List.nil_append]
  cases hU : Users cfg c [ConnOp.bindOp cfg.BindDN cfg.BindPassword] [q.Name] with
  | mk trU RU =>
    have hRU : RU = Except.error GoError.nilPointerDereference := by
      have := Users_nil_bases cfg c [ConnOp.bindOp cfg.BindDN cfg.BindPassword]
        [q.Name] hnil (by simp)
      rw [hU] at this
      exact this
    subst hRU
    simp

/-! ### Claim theorems -/

/-- C1, counterexample: at the single-endpoint `Login` boundary the two
outcomes are NOT the same externally visible rejection: a zero-result
search rejects with `ErrCouldNotFindUser`, while an invalid-credentials
result code on the verification bind rejects with
`ErrInvalidCredentials`, and these error values differ. -/
theorem login_same_rejection_counterexample :
    (Login cfgC1 connC1NotFound
        { Name := str ("nonexistent-user"), Password := str ("anything") }).2 =
      Except.error GoError.couldNotFindUser
  ∧ (Login cfgC1 connC1BadPw
        { Name := str ("alice"), Password := str ("wrong-password") }).2 =
      Except.error GoError.invalidCredentials
  ∧ GoError.couldNotFindUser ≠ GoError.invalidCredentials :=
  ⟨rfl, rfl, by decide⟩

/-- C1 (amended): for every login attempt against one endpoint, the
user-not-found outcome (batched search yields zero entries) rejects with
the distinguished `ErrCouldNotFindUser`, the invalid-credentials outcome
(result code 49 on the verification bind) rejects with
`ErrInvalidCredentials`, and the two externally visible rejections are
distinct error values at the `Login` boundary. -/
theorem login_distinct_rejection_kinds :
    (∀ (cfg : ServerConfig) (c : ConnBehavior) (q : LoginData),
      shouldAdminBind cfg = true →
      c.bindRes cfg.BindDN cfg.BindPassword = none →
      (∀ req, c.searchRes req = Except.ok { Entries := [] }) →
      cfg.SearchBaseDNs ≠ [] →
      (Login cfg c q).2 = Except.error GoError.couldNotFindUser)
  ∧ (∀ (cfg : ServerConfig) (c : ConnBehavior) (q : LoginData)
        (bd : Str) (rest : List Str) (e : Entry),
      shouldAdminBind cfg = true →
      c.bindRes cfg.BindDN cfg.BindPassword = none →
      cfg.SearchBaseDNs = bd :: rest →
      (∀ req, c.searchRes req = Except.ok { Entries := [e] }) →
      c.bindRes (buildGoldenUser cfg e).Name q.Password =
        some (GoError.ldapError 49) →
      (Login cfg c q).2 = Except.error GoError.invalidCredentials)
  ∧ GoError.couldNotFindUser ≠ GoError.invalidCredentials :=
  ⟨fun cfg c q h1 h2 h3 h4 => login_admin_not_found cfg c q h1 h2 h3 h4,
   fun cfg c q bd rest e h1 h2 h3 h4 h5 =>
     login_admin_invalid_credentials cfg c q bd rest e h1 h2 h3 h4 h5,
   by decide⟩

/-- C1, witness: the amended theorem applied to the concrete endpoint. -/
theorem login_distinct_rejection_kinds_witness :
    (Login cfgC1 connC1NotFound
        { Name := str ("nonexistent-user"), Password := str ("anything") }).2 =
      Except.error GoError.couldNotFindUser
  ∧ (Login cfgC1 connC1BadPw
        { Name := str ("alice"), Password := str ("wrong-password") }).2 =
      Except.error GoError.invalidCredentials :=
  ⟨login_distinct_rejection_kinds.1 cfgC1 connC1NotFound
      { Name := str ("nonexistent-user"), Password := str ("anything") }
      rfl rfl (fun _ => rfl) (by decide),
   login_distinct_rejection_kinds.2.1 cfgC1 connC1BadPw
      { Name := str ("alice"), Password := str ("wrong-password") }
      (str ("dc=example")) [] entryC1 rfl rfl rfl (fun _ => rfl) (by decide)⟩

/-- C2: under an admin-bind configuration a successful `Login` performs
the admin bind and then exactly one additional bind — but that bind's DN
is the user's DISPLAY NAME (the trimmed name-surname concatenation built
by `buildGoldenUser`), not the resolved entry's distinguished name: here
the code binds as `Carol Jones` although the entry's DN is
`uid=carol,dc=example`. -/
theorem admin_bind_verifies_display_name_not_dn :
    (Login cfgC2 connC2 { Name := str ("carol"), Password := str ("secret") }).1.filter
        isBindOp =
      [ConnOp.bindOp (str ("cn=admin,dc=example")) (str ("adminpw")),
       ConnOp.bindOp (str ("Carol Jones")) (str ("secret"))]
  ∧ (Login cfgC2 connC2 { Name := str ("carol"), Password := str ("secret") }).2 =
      Except.ok (buildGoldenUser cfgC2 entryC2)
  ∧ (buildGoldenUser cfgC2 entryC2).Name = str ("Carol Jones")
  ∧ entryC2.DN = str ("uid=carol,dc=example")
  ∧ (buildGoldenUser cfgC2 entryC2).Name ≠ entryC2.DN :=
  ⟨by decide, rfl, by decide, rfl, by decide⟩

/-- C3: bind-strategy selection is a total function of the endpoint
configuration and the three strategies are mutually exclusive: admin
bind exactly when the bind password is non-empty, single bind exactly
when the bind DN contains `%s` and no password is set, anonymous bind
otherwise. -/
theorem bind_strategy_selection (cfg : ServerConfig) :
    (bindStrategy cfg = BindStrategy.adminBind ↔ cfg.BindPassword ≠ [])
  ∧ (bindStrategy cfg = BindStrategy.singleBind ↔
      (containsSub cfg.BindDN (str ("%s")) = true ∧ cfg.BindPassword = []))
  ∧ (bindStrategy cfg = BindStrategy.anonymous ↔
      (containsSub cfg.BindDN (str ("%s")) = false ∧ cfg.BindPassword = [])) := by
  cases hbp : cfg.BindPassword with
  | nil =>
    cases hc : containsSub cfg.BindDN (str ("%s")) with
    | true => simp [bindStrategy, shouldAdminBind, shouldSingleBind, hbp, hc]
    | false => simp [bindStrategy, shouldAdminBind, shouldSingleBind, hbp, hc]
  | cons a t => simp [bindStrategy, shouldAdminBind, shouldSingleBind, hbp]

/-- C3, witness: each of the three strategies is selected on a concrete
configuration of its kind. -/
theorem bind_strategy_selection_witness :
    bindStrategy cfgC7 = BindStrategy.singleBind
  ∧ bindStrategy cfgC1 = BindStrategy.adminBind
  ∧ bindStrategy cfgC6 = BindStrategy.anonymous :=
  ⟨(bind_strategy_selection cfgC7).2.1.mpr ⟨by decide, rfl⟩,
   (bind_strategy_selection cfgC1).1.mpr (by decide),
   (bind_strategy_selection cfgC6).2.2.mpr ⟨by decide, rfl⟩⟩

/-- C4: for every non-empty login list of length n, `Users` issues
exactly ceil(n/500) consecutive batches, the i-th (0-indexed) covering
`[500*i, min(500*(i+1), n))`; 1200 logins give exactly the 3 batches
`[0,500) [500,1000) [1000,1200)`, and on a single-base endpoint whose
searches all succeed the wire trace of `Users` holds exactly one search
per batch. -/
theorem users_batching_spec (logins : List Str) (_hne : logins ≠ []) :
    (batchRanges logins.length).length = (logins.length + 499) / 500
  ∧ (∀ i (hi : i < (batchRanges logins.length).length),
      (batchRanges logins.length).get ⟨i, hi⟩ =
        (500 * i, min (500 * (i + 1)) logins.length))
  ∧ batchRanges 1200 = [(0, 500), (500, 1000), (1000, 1200)]
  ∧ (∀ (cfg : ServerConfig) (c : ConnBehavior) (bd : Str) (e : Entry),
      cfg.SearchBaseDNs = [bd] →
      (∀ req, c.searchRes req = Except.ok { Entries := [e] }) →
      (Users cfg c [] logins).1.length = (logins.length + 499) / 500) := by
  refine ⟨?_, ?_, by decide, ?_⟩
  · rw [batchRanges_length]; rfl
  · intro i hi
    exact batchRanges_get logins.length i hi
  · intro cfg c bd e hbd hs
    rw [Users_trace_length_single cfg c bd e logins hbd hs]
    rfl

/-- C4, witness: the 1200-batch boundaries, and one search issued for a
singleton login list on a concrete endpoint. -/
theorem users_batching_spec_witness :
    batchRanges 1200 = [(0, 500), (500, 1000), (1000, 1200)]
  ∧ (Users cfgC4 connC4 [] [str ("a")]).1.length = 1 :=
  ⟨(users_batching_spec [str ("a")] (by decide)).2.2.1,
   ((users_batching_spec [str ("a")] (by decide)).2.2.2 cfgC4 connC4
      (str ("dc=example")) entryC4 rfl (fun _ => rfl)).trans (by decide)⟩

/-- C5: the constructed search request has base DN as requested,
whole-subtree scope (2), alias dereferencing disabled (0), the attribute
list obtained from the attribute map (plus the group-search user
attribute) with empty names omitted, and a filter wrapping the
concatenated per-login fragments — each the filter template with `%s`
replaced by the filter-escaped login — in one OR group; the escaped
login contains no structural metacharacter (NUL, parentheses, `*`) and
every backslash it contains starts a two-hex-digit escape, so a login
cannot alter the filter structure. -/
theorem getSearchRequest_spec (cfg : ServerConfig) (base : Str)
    (logins : List Str) :
    (getSearchRequest cfg base logins).BaseDN = base
  ∧ (getSearchRequest cfg base logins).Scope = 2
  ∧ (getSearchRequest cfg base logins).DerefAliases = 0
  ∧ (getSearchRequest cfg base logins).Attributes =
      List.filter (fun v => !v.isEmpty)
        [cfg.Attr.Username, cfg.Attr.Surname, cfg.Attr.Email, cfg.Attr.Name,
         cfg.Attr.MemberOf, cfg.GroupSearchFilterUserAttribute]
  ∧ (getSearchRequest cfg base logins).Filter =
      str ("(|") ++ searchFragments cfg logins ++ str (")")
  ∧ (∀ l, filterMetaFree (escapeFilter l) = true)
  ∧ (∀ l, (∀ b ∈ l, b < 256) → wellEscaped (escapeFilter l) = true) := by
  refine ⟨rfl, rfl, rfl, ?_, rfl, escapeFilter_metaFree, escapeFilter_wellEscaped⟩
  show appendIfNotEmpty []
      [cfg.Attr.Username, cfg.Attr.Surname, cfg.Attr.Email, cfg.Attr.Name,
       cfg.Attr.MemberOf, cfg.GroupSearchFilterUserAttribute] = _
  rw [appendIfNotEmpty_eq_filter]
  simp

/-- C5, witness: the request built for a login containing `(` keeps the
parenthesis escaped as `\28` and the escape is well-formed. -/
theorem getSearchRequest_spec_witness :
    (getSearchRequest cfgC5 (str ("dc=example")) [str ("ali(ce")]).Filter =
      str ("(|") ++ searchFragments cfgC5 [str ("ali(ce")] ++ str (")")
  ∧ wellEscaped (escapeFilter (str ("ali(ce"))) = true
  ∧ escapeFilter (str ("ali(ce")) = str ("ali\\28ce") :=
  ⟨(getSearchRequest_spec cfgC5 (str ("dc=example")) [str ("ali(ce")]).2.2.2.2.1,
   (getSearchRequest_spec cfgC5 (str ("dc=example"))
      [str ("ali(ce")]).2.2.2.2.2.2 (str ("ali(ce")) (by decide),
   by decide⟩

/-- C6: `Dial` attempts the configured addresses in listed order; the
first fully successful host ends the loop with success and no further
host is attempted (the attempted prefix is exactly `take (i+1)`); if
every host fails, the error of the LAST attempted host is returned. -/
theorem dial_failover_spec (cfg : ServerConfig) (env : DialEnv)
    (hca : env.caLoad = none) (hcc : env.clientCertLoad = none) :
    (∀ i (hi : i < (dialAddresses cfg).length),
      (∀ j (hj : j < i),
        hostAttempt cfg env ((dialAddresses cfg).get ⟨j, lt_trans hj hi⟩) ≠ none) →
      hostAttempt cfg env ((dialAddresses cfg).get ⟨i, hi⟩) = none →
      Dial cfg env = ((dialAddresses cfg).take (i + 1), none))
  ∧ (∀ h : dialAddresses cfg ≠ [],
      (∀ a ∈ dialAddresses cfg, hostAttempt cfg env a ≠ none) →
      Dial cfg env = (dialAddresses cfg,
        hostAttempt cfg env ((dialAddresses cfg).getLast h))) := by
  have hD : Dial cfg env = dialLoop (hostAttempt cfg env) (dialAddresses cfg) := by
    unfold Dial
    rw [hca, hcc, ite_self, ite_self]
  constructor
  · intro i hi hprev hcur
    rw [hD]
    exact dialLoop_first_success (hostAttempt cfg env) (dialAddresses cfg) i hi
      hprev hcur
  · intro h hall
    rw [hD]
    exact dialLoop_all_fail (hostAttempt cfg env) (dialAddresses cfg) h hall

/-- C6, witness: with the first host unreachable and the second
reachable, `Dial` succeeds on the second host and stops there. -/
theorem dial_failover_spec_witness :
    Dial cfgC6 envC6 = ([str ("h1:389"), str ("h2:389")], none) := by
  have h := (dial_failover_spec cfgC6 envC6 rfl rfl).1 1 (by decide)
    (by decide) (by decide)
  rw [h]
  decide

/-- C7: under a single-bind configuration (`%s` in the bind DN, empty
bind password), `Login` performs exactly one bind on the connection —
with the rendered template as DN and the supplied credential as
password — and no second per-user verification bind after the search. -/
theorem single_bind_exactly_one_bind (cfg : ServerConfig) (c : ConnBehavior)
    (q : LoginData) (h1 : cfg.BindPassword = [])
    (h2 : shouldSingleBind cfg = true) :
    (Login cfg c q).1.filter isBindOp =
      [ConnOp.bindOp (singleBindDN cfg q.Name) q.Password] :=
  login_singleBind_binds cfg c q h1 h2

/-- C7, witness: `Login("bob", "secret")` with bind DN template
`uid=%s,dc=example` binds exactly once, as `uid=bob,dc=example`. -/
theorem single_bind_exactly_one_bind_witness :
    (Login cfgC7 connC7
        { Name := str ("bob"), Password := str ("secret") }).1.filter isBindOp =
      [ConnOp.bindOp (singleBindDN cfgC7 (str ("bob"))) (str ("secret"))]
  ∧ singleBindDN cfgC7 (str ("bob")) = str ("uid=bob,dc=example") :=
  ⟨single_bind_exactly_one_bind cfgC7 connC7
      { Name := str ("bob"), Password := str ("secret") } rfl (by decide),
   by decide⟩

/-- C8: mapping a directory entry builds the display name as the mapped
name and surname attributes joined by one space and trimmed; an absent
attribute contributes the empty string (no failure); concretely
name=Jane surname=Doe gives `Jane Doe`, and a missing surname gives
`Jane` with no trailing space. -/
theorem entry_mapping_display_name :
    (∀ (cfg : ServerConfig) (entry : Entry),
      (buildGoldenUser cfg entry).Name =
        trimSpace (getAttribute cfg.Attr.Name entry ++ str (" ") ++
          getAttribute cfg.Attr.Surname entry))
  ∧ (∀ (cfg : ServerConfig) (entry : Entry),
      (buildGoldenUser cfg entry).Email = getAttribute cfg.Attr.Email entry)
  ∧ (∀ (name : Str) (entry : Entry),
      (∀ a ∈ entry.Attributes, a.Name ≠ name) →
      toLowerASCII name ≠ str ("dn") →
      getAttribute name entry = [])
  ∧ (buildGoldenUser cfgC8 entryJane).Name = str ("Jane Doe")
  ∧ (buildGoldenUser cfgC8 entryJane).Email = str ("jane@x.com")
  ∧ (buildGoldenUser cfgC8 entryJaneNoSn).Name = str ("Jane") := by
  refine ⟨fun cfg entry => rfl, fun cfg entry => rfl, ?_, by decide, by decide,
    by decide⟩
  intro name entry hab hdn
  unfold getAttribute
  rw [if_neg hdn]
  exact getAttributeFrom_absent name entry.Attributes hab

/-- C8, witness: the absent-attribute clause applied to the concrete
entry lacking a surname attribute. -/
theorem entry_mapping_display_name_witness :
    getAttribute (str ("sn")) entryJaneNoSn = [] :=
  entry_mapping_display_name.2.2.1 (str ("sn")) entryJaneNoSn (by decide)
    (by decide)

/-- C9: with an empty search-base list the per-batch search helper reads
the `Entries` field of the never-assigned (nil) search result, so
`users`, `Users` (on any non-empty login list) and `Login` (once the
strategy bind succeeds) all end in the nil-pointer-dereference outcome:
no defined normal return exists on such a configuration. -/
theorem empty_search_bases_nil_dereference :
    (∀ (cfg : ServerConfig) (c : ConnBehavior) (tr : List ConnOp)
        (logins : List Str), cfg.SearchBaseDNs = [] →
      (users cfg c tr logins).2 = Except.error GoError.nilPointerDereference)
  ∧ (∀ (cfg : ServerConfig) (c : ConnBehavior) (logins : List Str),
      cfg.SearchBaseDNs = [] → logins ≠ [] →
      (Users cfg c [] logins).2 = Except.error GoError.nilPointerDereference)
  ∧ (∀ (cfg : ServerConfig) (c : ConnBehavior) (q : LoginData),
      cfg.SearchBaseDNs = [] → shouldAdminBind cfg = true →
      c.bindRes cfg.BindDN cfg.BindPassword = none →
      (Login cfg c q).2 = Except.error GoError.nilPointerDereference) :=
  ⟨fun cfg c tr logins h => by rw [users_nil_bases cfg c tr logins h],
   fun cfg c logins h hne => Users_nil_bases cfg c [] logins h hne,
   fun cfg c q h hadm hbind => login_admin_nil_bases cfg c q h hadm hbind⟩

/-- C9, witness: a concrete admin-bind endpoint with no search bases
reaches the nil dereference on `Login`. -/
theorem empty_search_bases_nil_dereference_witness :
    (Login cfgC9 connC9 { Name := str ("alice"), Password := str ("pw") }).2 =
      Except.error GoError.nilPointerDereference :=
  empty_search_bases_nil_dereference.2.2 cfgC9 connC9
    { Name := str ("alice"), Password := str ("pw") } rfl rfl rfl

/-- C10: in single-bind mode the DN passed to the verification bind is
the bind-DN template with the placeholder replaced by the login name
VERBATIM — no DN escaping — so DN metacharacters in the login reach the
bind unmodified (in contrast to search filters, where logins are
filter-escaped). -/
theorem single_bind_dn_verbatim (cfg : ServerConfig) (c : ConnBehavior)
    (q : LoginData) (pre suf : Str)
    (hbd : cfg.BindDN = pre ++ str ("%s") ++ suf)
    (hpre : ∀ b ∈ pre, b ≠ 37) (hsuf : ∀ b ∈ suf, b ≠ 37)
    (hpw : cfg.BindPassword = []) :
    (∀ username, singleBindDN cfg username = pre ++ username ++ suf)
  ∧ (Login cfg c q).1.filter isBindOp =
      [ConnOp.bindOp (pre ++ q.Name ++ suf) q.Password] := by
  have hdn : ∀ username, singleBindDN cfg username = pre ++ username ++ suf := by
    intro username
    unfold singleBindDN sprintf1
    rw [hbd]
    exact sprintf1_template pre suf username hpre hsuf
  have hsb : shouldSingleBind cfg = true := by
    unfold shouldSingleBind
    rw [hbd]
    have h0 : containsSub (str ("%s") ++ suf) (str ("%s")) = true :=
      containsSub_self_append (str ("%s")) suf (by decide)
    rw [List.append_assoc]
    exact containsSub_append_left pre (str ("%s") ++ suf) (str ("%s")) h0
  refine ⟨hdn, ?_⟩
  rw [login_singleBind_binds cfg c q hpw hsb, hdn q.Name]

/-- C10, witness: a login name containing the DN metacharacters `,` and
`=` is substituted verbatim into the bind DN. -/
theorem single_bind_dn_verbatim_witness :
    singleBindDN cfgC10 (str ("bob,ou=x")) = str ("uid=bob,ou=x,dc=example")
  ∧ (Login cfgC10 connC10
        { Name := str ("bob,ou=x"), Password := str ("pw") }).1.filter isBindOp =
      [ConnOp.bindOp (str ("uid=") ++ str ("bob,ou=x") ++ str (",dc=example"))
        (str ("pw"))] := by
  have h := single_bind_dn_verbatim cfgC10 connC10
    { Name := str ("bob,ou=x"), Password := str ("pw") }
    (str ("uid=")) (str (",dc=example")) (by decide) (by decide) (by decide) rfl
  exact ⟨(h.1 (str ("bob,ou=x"))).trans (by decide), h.2⟩

end GoldenLdap
